import Mathlib

/-
  Verification development for the MathEx expression evaluator.

  The evaluator core lives in src/mathex.h: a PEG grammar (compiled by the
  external cpp-peglib engine), the variable-index codec getNumber, the
  function registries, the AST walker parseAST, the truth decision
  evaluateMathexAST, and the public entry point mathex.

  Modelling conventions:
  - C++ double is modelled as MF := Option Rat, with none standing for NaN.
    Decimal literals are modelled exactly (stod rounds to the nearest
    double; no theorem below depends on that rounding).
  - The transcendental library functions (log, sin, ..., pow, atan2) have
    no exact rational meaning; the development is parameterised over their
    interpretation (structure TFns), and every theorem holds for all
    interpretations.  abs, ceil, floor, max, min are modelled exactly.
  - Unbounded loops and recursion are modelled with an explicit fuel
    parameter; a result of none means the computation produced no value
    (it diverged, crashed on out-of-bounds vector access, called a null
    function pointer, or threw from std::stod).
  - Machine integers (uint64_t) are modelled as Nat with explicit % 2 ^ 64
    where C++ wraparound matters.
-/

/-- Modelled from the spec: the AST produced by the external grammar engine
(cpp-peglib, not under src/).  Per spec section 6 the core reads only each
node's rule name, token text and ordered children; one node is produced per
matched named grammar rule, and a node's token text is the input text the
rule matched. -/
structure Ast where
  name : String
  token : String
  nodes : List Ast

/-- Matches a literal character sequence at the head of the input,
returning the remaining input. -/
def matchLit : List Char → List Char → Option (List Char)
  | [], rest => some rest
  | c :: cs, d :: ds => if c = d then matchLit cs ds else none
  | _ :: _, [] => none

/-- PEG ordered choice over a list of literals: first literal that matches
wins. -/
def firstLit : List String → List Char → Option (String × List Char)
  | [], _ => none
  | l :: ls, inp =>
    match matchLit l.toList inp with
    | some rest => some (l, rest)
    | none => firstLit ls inp

def isDigitC (c : Char) : Bool := decide ('0' ≤ c) && decide (c ≤ '9')

def isVarC (c : Char) : Bool := decide ('A' ≤ c) && decide (c ≤ 'P')

/-- Greedy character-class repetition: longest prefix satisfying p, and the
rest. -/
def takeCls (p : Char → Bool) : List Char → List Char × List Char
  | [] => ([], [])
  | c :: cs =>
    if p c then
      let r := takeCls p cs
      (c :: r.1, r.2)
    else ([], c :: cs)

/-- Builds an AST node for rule rname that consumed input from inp down to
rest: its token is the consumed text. -/
def mkAst (rname : String) (inp rest : List Char) (children : List Ast) : Ast :=
  ⟨rname, String.mk (inp.take (inp.length - rest.length)), children⟩

/-- PEG ordered choice between two alternatives. -/
def altO {α : Type} (a : Option α) (b : Unit → Option α) : Option α :=
  match a with
  | some x => some x
  | none => b ()

/-- Grammar rule: Number <- [0-9]+ '.' [0-9]+ / [0-9]+  (token rule). -/
def numberRule (inp : List Char) : Option (Ast × List Char) :=
  let p := takeCls isDigitC inp
  if p.1.isEmpty then none
  else
    match p.2 with
    | '.' :: r2 =>
      let p2 := takeCls isDigitC r2
      if p2.1.isEmpty then some (⟨ "Number", String.mk p.1, []⟩, p.2)
      else some (⟨ "Number", String.mk (p.1 ++ '.' :: p2.1), []⟩, p2.2)
    | r => some (⟨ "Number", String.mk p.1, []⟩, r)

/-- Grammar rule: Variable <- [A-P]+  (token rule). -/
def varRule (inp : List Char) : Option (Ast × List Char) :=
  let p := takeCls isVarC inp
  if p.1.isEmpty then none else some (⟨ "Variable", String.mk p.1, []⟩, p.2)

/-- The FunctionSingle literals exactly as written in the grammar text of
src/mathex.h (note: the grammar lists atanh2, not atanh). -/
def fsNames : List String :=
  ["abs", "log", "sin", "cos", "tan", "asin", "acos", "sinh", "cosh",
   "tanh", "asinh", "acosh", "atanh2", "ceil", "floor"]

/-- The FunctionDouble literals of the grammar text. -/
def fdNames : List String := ["max", "min", "pow", "atan2"]

def mulNames : List String := ["*", "/", "%"]
def addNames : List String := ["+", "-"]
def compNames : List String := ["<", ">", "<=", ">="]
def equNames : List String := ["==", "!="]

/-- A token rule that is an ordered choice of literals (FunctionSingle,
FunctionDouble, mul, add, Comp, Equ). -/
def litRule (rname : String) (lits : List String) (inp : List Char) :
    Option (Ast × List Char) :=
  match firstLit lits inp with
  | some (l, rest) => some (⟨rname, l, []⟩, rest)
  | none => none

/-- The starred tail (sep sub)* of an operator-chain rule whose separator is
a named rule (mul, add, Comp, Equ): each iteration contributes a separator
node and an operand node; a failed iteration backtracks wholly and ends the
star. -/
def chainSep (sub sep : List Char → Option (Ast × List Char)) :
    Nat → List Char → Option (List Ast × List Char)
  | 0, _ => none
  | f + 1, inp =>
    match sep inp with
    | none => some ([], inp)
    | some (sa, r1) =>
      match sub r1 with
      | none => some ([], inp)
      | some (ba, r2) =>
        match chainSep sub sep f r2 with
        | none => none
        | some (rest, rf) => some (sa :: ba :: rest, rf)

/-- The starred tail of an operator-chain rule whose separator is an inline
literal (the levels Op6..Op10): literals produce no AST node. -/
def chainLit (sub : List Char → Option (Ast × List Char)) (l : String) :
    Nat → List Char → Option (List Ast × List Char)
  | 0, _ => none
  | f + 1, inp =>
    match matchLit l.toList inp with
    | none => some ([], inp)
    | some r1 =>
      match sub r1 with
      | none => some ([], inp)
      | some (ba, r2) =>
        match chainLit sub l f r2 with
        | none => none
        | some (rest, rf) => some (ba :: rest, rf)

/-- An operator-chain level with a named separator rule. -/
def levelSep (rname : String) (sub sep : List Char → Option (Ast × List Char))
    (inp : List Char) : Option (Ast × List Char) :=
  match sub inp with
  | none => none
  | some (a0, r0) =>
    match chainSep sub sep (r0.length + 1) r0 with
    | none => none
    | some (rest, rf) => some (mkAst rname inp rf (a0 :: rest), rf)

/-- An operator-chain level with an inline literal separator. -/
def levelLit (rname : String) (sub : List Char → Option (Ast × List Char))
    (l : String) (inp : List Char) : Option (Ast × List Char) :=
  match sub inp with
  | none => none
  | some (a0, r0) =>
    match chainLit sub l (r0.length + 1) r0 with
    | none => none
    | some (rest, rf) => some (mkAst rname inp rf (a0 :: rest), rf)

/-- Atomic alternative: FunctionSingle '(' Op10 ')'. -/
def atomicFS (rec : List Char → Option (Ast × List Char)) (inp : List Char) :
    Option (Ast × List Char) :=
  match litRule "FunctionSingle" fsNames inp with
  | none => none
  | some (fa, r1) =>
    match matchLit ['('] r1 with
    | none => none
    | some r2 =>
      match rec r2 with
      | none => none
      | some (ea, r3) =>
        match matchLit [')'] r3 with
        | none => none
        | some r4 => some (mkAst "Atomic" inp r4 [fa, ea], r4)

/-- Atomic alternative: FunctionDouble '(' Op10 ',' Op10 ')'. -/
def atomicFD (rec : List Char → Option (Ast × List Char)) (inp : List Char) :
    Option (Ast × List Char) :=
  match litRule "FunctionDouble" fdNames inp with
  | none => none
  | some (fa, r1) =>
    match matchLit ['('] r1 with
    | none => none
    | some r2 =>
      match rec r2 with
      | none => none
      | some (e1, r3) =>
        match matchLit [','] r3 with
        | none => none
        | some r4 =>
          match rec r4 with
          | none => none
          | some (e2, r5) =>
            match matchLit [')'] r5 with
            | none => none
            | some r6 => some (mkAst "Atomic" inp r6 [fa, e1, e2], r6)

/-- Atomic alternative: '(' Op10 ')'. -/
def atomicParen (rec : List Char → Option (Ast × List Char)) (inp : List Char) :
    Option (Ast × List Char) :=
  match matchLit ['('] inp with
  | none => none
  | some r1 =>
    match rec r1 with
    | none => none
    | some (ea, r2) =>
      match matchLit [')'] r2 with
      | none => none
      | some r3 => some (mkAst "Atomic" inp r3 [ea], r3)

/-- Grammar rule Atomic, ordered alternatives exactly as in the grammar
text.  rec parses an Op10 sub-expression. -/
def atomicRule (rec : List Char → Option (Ast × List Char)) (inp : List Char) :
    Option (Ast × List Char) :=
  altO ((numberRule inp).map (fun p => (mkAst "Atomic" inp p.2 [p.1], p.2))) (fun _ =>
  altO ((varRule inp).map (fun p => (mkAst "Atomic" inp p.2 [p.1], p.2))) (fun _ =>
  altO (atomicFS rec inp) (fun _ =>
  altO (atomicFD rec inp) (fun _ => atomicParen rec inp))))

/-- Grammar rule Op1 <- '!' Atomic / '~' Atomic / Atomic. -/
def op1Rule (recAtomic : List Char → Option (Ast × List Char)) (inp : List Char) :
    Option (Ast × List Char) :=
  altO (match matchLit ['!'] inp with
        | none => none
        | some r1 => (recAtomic r1).map (fun p => (mkAst "Op1" inp p.2 [p.1], p.2)))
    (fun _ =>
  altO (match matchLit ['~'] inp with
        | none => none
        | some r1 => (recAtomic r1).map (fun p => (mkAst "Op1" inp p.2 [p.1], p.2)))
    (fun _ => (recAtomic inp).map (fun p => (mkAst "Op1" inp p.2 [p.1], p.2))))

/-- The named, node-producing grammar rules that can recurse. -/
inductive Rule where
  | atomicR | op1R | op2R | op3R | op4R | op5R | op6R | op7R | op8R | op9R | op10R

/-- The recursive-descent PEG interpreter for the grammar of src/mathex.h.
Fuel bounds only the depth of rule recursion; every cycle back to the same
rule consumes at least one input character, so fuel 100 * (length + 1) can
never be exhausted and the interpreter is a total model of the grammar. -/
def runRule : Nat → Rule → List Char → Option (Ast × List Char)
  | 0, _, _ => none
  | f + 1, r, inp =>
    match r with
    | Rule.atomicR => atomicRule (fun i => runRule f Rule.op10R i) inp
    | Rule.op1R => op1Rule (fun i => runRule f Rule.atomicR i) inp
    | Rule.op2R => levelSep "Op2" (fun i => runRule f Rule.op1R i) (litRule "mul" mulNames) inp
    | Rule.op3R => levelSep "Op3" (fun i => runRule f Rule.op2R i) (litRule "add" addNames) inp
    | Rule.op4R => levelSep "Op4" (fun i => runRule f Rule.op3R i) (litRule "Comp" compNames) inp
    | Rule.op5R => levelSep "Op5" (fun i => runRule f Rule.op4R i) (litRule "Equ" equNames) inp
    | Rule.op6R => levelLit "Op6" (fun i => runRule f Rule.op5R i) "&" inp
    | Rule.op7R => levelLit "Op7" (fun i => runRule f Rule.op6R i) "^" inp
    | Rule.op8R => levelLit "Op8" (fun i => runRule f Rule.op7R i) "|" inp
    | Rule.op9R => levelLit "Op9" (fun i => runRule f Rule.op8R i) "&&" inp
    | Rule.op10R => levelLit "Op10" (fun i => runRule f Rule.op9R i) "||" inp

/-- Modelled from the spec: parser.parse of the external engine.  The start
symbol is the grammar's first rule (Atomic, as the grammar text is written
in src/mathex.h), and a parse succeeds only if the whole input is
consumed. -/
def pegParseExpr (s : String) : Option Ast :=
  match runRule (100 * (s.length + 1)) Rule.atomicR s.toList with
  | some (a, []) => some a
  | _ => none

/-- The variable index codec of src/mathex.h, loop body of getNumber: each
letter contributes hexValue = uint64(letter) - 65, ORed in at shift 0 when
lowOrder and shift 4 otherwise; lowOrder merely toggles, so the shift never
advances past 4. -/
def getNumberGo : List Char → Bool → Nat → Nat
  | [], _, acc => acc
  | c :: rest, lowOrder, acc =>
    let hexValue : Nat := (c.toNat + (2 ^ 64 - 65)) % 2 ^ 64
    let acc2 : Nat := if lowOrder then acc ||| hexValue else acc ||| (hexValue <<< 4) % 2 ^ 64
    getNumberGo rest (!lowOrder) acc2

/-- uint64_t getNumber(std::string letters) of src/mathex.h. -/
def getNumber (letters : String) : Nat := getNumberGo letters.toList true 0

/-- Modelled from the spec (section 4.2), for comparison with getNumber:
the i-th letter (0-based) contributes its nibble value shifted left by
4 * i bits, i.e. the token is read as little-endian base-16 digits. -/
def specDecode (letters : String) : Nat :=
  (letters.toList.enum.map (fun p => (p.2.toNat - 65) * 16 ^ p.1)).sum

/-- Model of C++ double: a rational, or none for NaN. -/
abbrev MF := Option ℚ

/-- std::abs on a non-NaN double. -/
def absQ (q : ℚ) : ℚ := if q < 0 then -q else q

def mfAbs : MF → MF := Option.map absQ

def mfCeil : MF → MF := Option.map (fun q => ((⌈q⌉ : ℤ) : ℚ))

def mfFloor : MF → MF := Option.map (fun q => ((⌊q⌋ : ℤ) : ℚ))

/-- The C++ operator < on doubles: any comparison with NaN is false. -/
def mfLt : MF → MF → Bool
  | some x, some y => decide (x < y)
  | _, _ => false

/-- std::max(a, b) = (a < b) ? b : a. -/
def mfMax (a b : MF) : MF := if mfLt a b then b else a

/-- std::min(a, b) = (b < a) ? b : a. -/
def mfMin (a b : MF) : MF := if mfLt b a then b else a

/-- The interpretations of the registry functions that have no exact
rational semantics; every theorem below is proved for all
interpretations. -/
structure TFns where
  logF : MF → MF
  sinF : MF → MF
  cosF : MF → MF
  tanF : MF → MF
  asinF : MF → MF
  acosF : MF → MF
  sinhF : MF → MF
  coshF : MF → MF
  tanhF : MF → MF
  asinhF : MF → MF
  acoshF : MF → MF
  atanhF : MF → MF
  powF : MF → MF → MF
  atan2F : MF → MF → MF

/-- A concrete interpretation (used only to instantiate universally
quantified statements at a specific point). -/
def trivialT : TFns :=
  ⟨fun _ => none, fun _ => none, fun _ => none, fun _ => none, fun _ => none,
   fun _ => none, fun _ => none, fun _ => none, fun _ => none, fun _ => none,
   fun _ => none, fun _ => none, fun _ _ => none, fun _ _ => none⟩

/-- The functionSingle table of parseAST in src/mathex.h (keys exactly as in
the source; note the key here is atanh while the grammar literal is
atanh2). -/
def functionSingle (T : TFns) : List (String × (MF → MF)) :=
  [("abs", mfAbs), ("log", T.logF), ("sin", T.sinF), ("cos", T.cosF),
   ("tan", T.tanF), ("asin", T.asinF), ("acos", T.acosF), ("sinh", T.sinhF),
   ("cosh", T.coshF), ("tanh", T.tanhF), ("asinh", T.asinhF),
   ("acosh", T.acoshF), ("atanh", T.atanhF), ("ceil", mfCeil),
   ("floor", mfFloor)]

/-- The functionDouble table of parseAST in src/mathex.h. -/
def functionDouble (T : TFns) : List (String × (MF → MF → MF)) :=
  [("max", mfMax), ("min", mfMin), ("pow", T.powF), ("atan2", T.atan2F)]

/-- The operationLookup table of parseAST: rule name to the Opts enum value
(ATOMIC = 0, NUMBER = 1, VARIABLE = 2, FUNCTIONSINGLE = 3,
FUNCTIONDOUBLE = 4, OPERATORSINGLE = 5, OPERATORMULTIPLE = 6). -/
def operationLookup : List (String × Nat) :=
  [("Atomic", 0), ("Number", 1), ("Variable", 2), ("FunctionSingle", 3),
   ("FunctionDouble", 4), ("Op1", 5), ("Op2", 6), ("Op3", 6), ("Op4", 6),
   ("Op5", 6), ("Op6", 6), ("Op7", 6), ("Op8", 6), ("Op9", 6), ("Op10", 6)]

/-- ast->name.substr(0, 2) == "Op". -/
def startsOp (s : String) : Bool := s.toList.take 2 == ['O', 'p']

/-- The chain-simplification while loop of parseAST (src/mathex.h lines
105-113): while the name starts with Op, run a body whose both switch arms
are plain break statements; the body changes nothing, modelled by iterating
on fuel with an unchanged state. -/
def opChainIter : Nat → Ast → Option Ast
  | 0, _ => none
  | g + 1, a => if startsOp a.name then opChainIter g a else some a

/-- One entry test of the while condition, then the fuel-bounded
iteration. -/
def opChainLoop (f : Nat) (a : Ast) : Option Ast :=
  if startsOp a.name then opChainIter f a else some a

/-- Model of peglib token_to_number<double> (std::stod on the token): a
leading run of digits, optionally followed by a point and more digits; no
digits at all means stod throws (no value). -/
def stodQ (s : String) : Option ℚ :=
  let p := takeCls isDigitC s.toList
  if p.1.isEmpty then none
  else
    match p.2 with
    | '.' :: r2 =>
      let p2 := takeCls isDigitC r2
      some ((((p.1.foldl (fun acc c => 10 * acc + (c.toNat - 48)) 0 : Nat) : ℚ)) +
        mkRat (p2.1.foldl (fun acc c => 10 * acc + (c.toNat - 48)) 0 : Nat) (10 ^ p2.1.length))
    | _ => some (((p.1.foldl (fun acc c => 10 * acc + (c.toNat - 48)) 0 : Nat) : ℚ))

/-- The C++ stub double parseOperators(nodes, args, error) in src/mathex.h:
it returns 0.0 unconditionally (and is never called). -/
def parseOperators (nodes : List Ast) (args : List MF) (err : Bool) : MF := some 0

/-- double parseAST(ast, args, error, epsilon) of src/mathex.h, with
explicit fuel and with the error flag threaded as state: the result is
some (value, error

) on a C++ return, and none when the call produces no
value (the while loop diverges, a vector subscript is out of range, a
missing map entry is invoked as a null function pointer, stod throws, or
control falls off the end of the function in the OPERATORSINGLE case).
Notes kept faithful to the source: the unordered_map operator[] used for
the dispatch on nodes[0]->name default-inserts 0 (ATOMIC) for unknown
names; FUNCTIONSINGLE reads the function name from nodes[1] (which is the
argument sub-tree) and the argument from nodes[2]; FUNCTIONDOUBLE reads
nodes[1], nodes[2] and nodes[3]; the VARIABLE bounds check is
varNum - 1 > args.size() in uint64 arithmetic. -/
def parseAST (T : TFns) : Nat → Ast → List MF → Bool → Option (MF × Bool)
  | 0, _, _, _ => none
  | f + 1, ast, args, err =>
    match operationLookup.lookup ast.name with
    | none => some (some 0, true)
    | some _ =>
      match opChainLoop f ast with
      | none => none
      | some ast2 =>
        match ast2.nodes.get? 0 with
        | none => none
        | some n0 =>
          match (operationLookup.lookup n0.name).getD 0 with
          | 3 =>
            match ast2.nodes.get? 1, ast2.nodes.get? 2 with
            | some n1, some n2 =>
              match parseAST T f n2 args err with
              | none => none
              | some (v, e1) =>
                match (functionSingle T).lookup n1.token with
                | none => none
                | some fn => some (fn v, e1)
            | _, _ => none
          | 4 =>
            match ast2.nodes.get? 1, ast2.nodes.get? 2, ast2.nodes.get? 3 with
            | some n1, some n2, some n3 =>
              match parseAST T f n2 args err with
              | none => none
              | some (v1, e1) =>
                match parseAST T f n3 args e1 with
                | none => none
                | some (v2, e2) =>
                  match (functionDouble T).lookup n1.token with
                  | none => none
                  | some fn => some (fn v1 v2, e2)
            | _, _, _ => none
          | 1 =>
            match stodQ ast2.token with
            | none => none
            | some q => some (some q, err)
          | 2 =>
            let varNum := getNumber ast2.token
            if (varNum + (2 ^ 64 - 1)) % 2 ^ 64 > args.length then
              some (none, true)
            else
              match args.get? varNum with
              | some v => some (v, err)
              | none => none
          | 5 => none
          | _ => some (none, true)

/-- std::numeric_limits<double>::epsilon(), the exactly representable value
2 to the power -52. -/
def epsilonQ : ℚ := mkRat 1 (2 ^ 52)

/-- The truth decision applied to a parseAST outcome:
!error && (std::abs(result) > epsilon); a NaN result compares false. -/
def mfTruth (p : MF × Bool) : Bool :=
  !p.2 && (match mfAbs p.1 with
           | none => false
           | some a => decide (epsilonQ < a))

/-- bool evaluateMathexAST(ast, args, epsilon) of src/mathex.h. -/
def evaluateMathexAST (T : TFns) (f : Nat) (ast : Ast) (args : List MF) :
    Option Bool :=
  (parseAST T f ast args false).map mfTruth

/-- int64_t mathex(exp, args) of src/mathex.h: on parse success it calls
evaluateMathexAST, discards the result and returns 0; on parse failure it
returns true (the int64 value 1).  none means the call never returns. -/
def mathex (T : TFns) (f : Nat) (exp : String) (args : List MF) : Option Int :=
  match pegParseExpr exp with
  | some ast => (evaluateMathexAST T f ast args).map (fun _ => 0)
  | none => some 1

theorem opChainIter_none (f : Nat) (a : Ast) (h : startsOp a.name = true) :
    opChainIter f a = none := by
  induction f with
  | zero => rfl
  | succ g ih => unfold opChainIter; simp [h, ih]

theorem opChainLoop_none (f : Nat) (a : Ast) (h : startsOp a.name = true) :
    opChainLoop f a = none := by
  unfold opChainLoop
  simp [h, opChainIter_none f a h]

theorem parseAST_op_none (T : TFns) (f : Nat) (a : Ast) (args : List MF)
    (err : Bool) (h1 : startsOp a.name = true) (c : Nat)
    (h2 : operationLookup.lookup a.name = some c) :
    parseAST T f a args err = none := by
  cases f with
  | zero => rfl
  | succ g =>
    simp only [parseAST]
    rw [h2, opChainLoop_none g a h1]

/-- Claim C9: for every AST node named by one of the ten operator-chain
rules Op1..Op10, parseAST never returns for any fuel bound (its
chain-simplification loop tests the name but its body changes nothing), and
hence evaluateMathexAST never returns either. -/
theorem claim_C9 (T : TFns) (f : Nat) (a : Ast) (args : List MF) (err : Bool)
    (h : a.name ∈ ["Op1", "Op2", "Op3", "Op4", "Op5", "Op6", "Op7", "Op8",
      "Op9", "Op10"]) :
    parseAST T f a args err = none ∧ evaluateMathexAST T f a args = none := by
  have h1 : startsOp a.name = true ∧ (operationLookup.lookup a.name).isSome = true := by
    simp only [List.mem_cons, List.not_mem_nil, or_false] at h
    rcases h with h | h | h | h | h | h | h | h | h | h <;> rw [h] <;> exact ⟨ rfl, rfl⟩
  obtain ⟨c, hc⟩ := Option.isSome_iff_exists.mp h1.2
  have hp : ∀ e : Bool, parseAST T f a args e = none := fun e =>
    parseAST_op_none T f a args e h1.1 c hc
  refine ⟨hp err, ?_⟩
  unfold evaluateMathexAST
  rw [hp false]
  rfl

theorem claim_C9_witness :
    parseAST trivialT 7 ⟨ "Op3", "", []⟩ [] false = none ∧
    evaluateMathexAST trivialT 7 ⟨ "Op3", "", []⟩ [] = none :=
  claim_C9 trivialT 7 ⟨ "Op3", "", []⟩ [] false (by decide)

/-- Claim C10: whenever mathex terminates, its return value does not depend
on the argument vector (nor on the interpretation of the library functions
or the fuel): it is 0 exactly when parsing succeeds and 1 (nonzero) exactly
when parsing fails; the result of evaluateMathexAST is discarded. -/
theorem claim_C10 :
    (∀ (T1 T2 : TFns) (f1 f2 : Nat) (e : String) (a1 a2 : List MF) (v1 v2 : Int),
        mathex T1 f1 e a1 = some v1 → mathex T2 f2 e a2 = some v2 → v1 = v2) ∧
    (∀ (T : TFns) (f : Nat) (e : String) (a : List MF) (v : Int),
        mathex T f e a = some v → (v = 0 ↔ (pegParseExpr e).isSome = true)) := by
  constructor
  · intro T1 T2 f1 f2 e a1 a2 v1 v2 h1 h2
    unfold mathex at h1 h2
    cases hp : pegParseExpr e with
    | none =>
      rw [hp] at h1 h2
      injection h1 with h1
      injection h2 with h2
      rw [← h1, ← h2]
    | some ast =>
      rw [hp] at h1 h2
      rcases Option.map_eq_some'.mp h1 with ⟨b1, hb1, hv1⟩
      rcases Option.map_eq_some'.mp h2 with ⟨b2, hb2, hv2⟩
      rw [← hv1, ← hv2]
  · intro T f e a v h
    unfold mathex at h
    cases hp : pegParseExpr e with
    | none =>
      rw [hp] at h
      injection h with h
      rw [← h]
      simp
    | some ast =>
      rw [hp] at h
      rcases Option.map_eq_some'.mp h with ⟨b, hb, hv⟩
      rw [← hv]
      simp

theorem claim_C10_witness :
    ((0 : Int) = 0) ∧ ((0 : Int) = 0 ↔ (pegParseExpr "5").isSome = true) :=
  ⟨claim_C10.1 trivialT trivialT 2 3 "5" [] [some 1] 0 0 rfl rfl,
   claim_C10.2 trivialT 2 "5" [] 0 rfl⟩

/-- Claim C1: the claim says the full pipeline on the expression
max(1,!2) reports TRUE.  In the code it never reports anything: the
parse succeeds, but parseAST reads the out-of-range child nodes[3] and
recurses into an Op10 argument node whose chain loop never terminates, so
mathex produces no value for any fuel bound and any argument vector (and
on expressions where evaluation does finish, mathex discards the boolean
and returns the parse status 0, printed by main as FALSE). -/
theorem claim_C1 (T : TFns) (f : Nat) (args : List MF) :
    mathex T f "max(1,!2)" args = none := by
  cases f with
  | zero => rfl
  | succ g => rfl

/-- Claim C2: the claim says the public evaluate operation returns a
boolean or an error.  In the code, for the successfully parsed expression
5 the truth decision computes the boolean true (|5| exceeds epsilon), but
mathex discards it and hands the caller the parse-status integer 0. -/
theorem claim_C2 (T : TFns) (args : List MF) :
    mathex T 2 "5" args = some 0 ∧
    (pegParseExpr "5").map (fun a => evaluateMathexAST T 2 a args) =
      some (some true) :=
  ⟨rfl, rfl⟩

/-- Claim C3: the claim says the variable A (decoding to 0) resolves to
args[0] = 0.1 under arguments [0.1, 0.2, 0.3] and that exactly the indices
at or above the argument count fail.  In the code the bounds check computes
varNum - 1 in uint64 arithmetic: for A it underflows and reports
out-of-range (NaN, error flag set), while for D (decoding to 3, equal to
the argument count) the check passes and the out-of-bounds read args[3]
produces no value at all. -/
theorem claim_C3 (T : TFns) :
    getNumber "A" = 0 ∧
    (pegParseExpr "A").map
        (fun a => parseAST T 2 a [some (1 / 10), some (2 / 10), some (3 / 10)] false) =
      some (some (none, true)) ∧
    getNumber "D" = 3 ∧
    (pegParseExpr "D").map
        (fun a => parseAST T 2 a [some (1 / 10), some (2 / 10), some (3 / 10)] false) =
      some none :=
  ⟨rfl, rfl, rfl, rfl⟩

/-- Claim C4: the claim says the third letter of a variable token lands in
the low nibble of byte 1 (shift 8).  In the code the shift never advances
past 4, so getNumber of AAB is 1, not the 256 that the specified
nibble-packing (specDecode) yields. -/
theorem claim_C4 : getNumber "AAB" = 1 ∧ specDecode "AAB" = 256 ∧ (1 : Nat) ≠ 256 :=
  ⟨rfl, rfl, by decide⟩

/-- Claim C5: the claim says decode is injective on tokens of a fixed
length.  In the code the distinct length-3 tokens AAC and CAA decode to the
same index. -/
theorem claim_C5 :
    getNumber "AAC" = getNumber "CAA" ∧ ("AAC" : String) ≠ "CAA" ∧
    ("AAC" : String).length = ("CAA" : String).length :=
  ⟨rfl, by decide, rfl⟩

/-- Claim C6: the claim says 1+2*3 evaluates to 7.0.  In the code the
grammar's start rule is Atomic, which cannot match a top-level binary
expression: the text fails to parse and mathex returns the parse-failure
value 1; even the parenthesized form evaluates to an unknown-operation
error and mathex returns 0 — the value 7.0 is never produced. -/
theorem claim_C6 :
    pegParseExpr "1+2*3" = none ∧
    (∀ (T : TFns) (f : Nat) (args : List MF), mathex T f "1+2*3" args = some 1) ∧
    (∀ (T : TFns) (args : List MF), mathex T 2 "(1+2*3)" args = some 0) :=
  ⟨rfl, fun _ _ _ => rfl, fun _ _ => rfl⟩

/-- Claim C7: the claim says each registry name at its arity parses and
dispatches, in particular atanh(0).  In the code the grammar lists the
literal atanh2 while the registry key is atanh, so atanh(0) is a parse
error and atanh2(0) parses but has no registry entry; and even a matching
call such as abs(5) produces no value, since the dispatch reads the
function name from the argument child and indexes a nonexistent child. -/
theorem claim_C7 :
    pegParseExpr "atanh(0)" = none ∧
    (∀ (T : TFns) (f : Nat) (args : List MF), mathex T f "atanh(0)" args = some 1) ∧
    (pegParseExpr "atanh2(0)").isSome = true ∧
    (∀ T : TFns, ((functionSingle T).lookup "atanh").isSome = true ∧
      (functionSingle T).lookup "atanh2" = none) ∧
    (∀ (T : TFns) (f : Nat) (args : List MF), mathex T f "abs(5)" args = none) :=
  ⟨rfl, fun _ _ _ => rfl, rfl, fun _ => ⟨rfl, rfl⟩,
   fun _ f _ => by cases f <;> rfl⟩

/-- Claim C8: the claim says every failing evaluation hands the caller a
tagged error value.  In the code the out-of-range variable A (with an empty
argument vector) sets the error flag, evaluateMathexAST folds it into the
boolean false, and mathex returns 0 — exactly the value it returns for the
successfully evaluated expression 5 — so the caller can see no error at
all. -/
theorem claim_C8 (T : TFns) :
    mathex T 2 "A" [] = some 0 ∧
    (pegParseExpr "A").map (fun a => parseAST T 2 a [] false) =
      some (some (none, true)) ∧
    mathex T 2 "5" [] = some 0 :=
  ⟨rfl, rfl, rfl⟩
